import Mathlib

/-!
Verification development for the text-weather service.

The embedding covers the two core components of the repository:

* `src/services/locationProcessor.ts` — the location-string parser
  (`processLocation`): its synchronous decision logic is embedded as a total
  function from the input character list to a four-way outcome (coordinates,
  format error, hand-off to the remote three-word lookup, or the
  `NotALocation` sentinel `null`).
* `src/services/weatherManager.ts` — the provider failover manager
  (`WeatherServiceManager`): priority-order construction, the ordered retry
  loop of `getForecast`, error aggregation, and `formatForecast`.

Modelling conventions: JS strings are `List Char`; JS numbers that carry
coordinate or temperature values are exact rationals `ℚ` (the decimal
literals occurring in the program are modelled exactly rather than as IEEE
doubles); provider calls (`isAvailable`, `getForecast`) are per-call result
values `Except` (a thrown JS error is the `.error` case); locale/timezone
dependent time rendering (`toLocaleTimeString`) is an explicit oracle
parameter.
-/

namespace TextWeather

/-- ASCII whitespace test backing `String.prototype.trim` (space, tab, LF, CR)
for the character set relevant to text-message input. -/
def isWsChar (c : Char) : Bool :=
  c.toNat = 32 || c.toNat = 9 || c.toNat = 10 || c.toNat = 13

/-- The regex character class `\d` (`[0-9]`). -/
def isDigitChar (c : Char) : Bool := 48 ≤ c.toNat && c.toNat ≤ 57

/-- The regex character class `[a-z]`. -/
def isLowerAlpha (c : Char) : Bool := 97 ≤ c.toNat && c.toNat ≤ 122

/-- `String.prototype.toLowerCase`, modelled on the basic-latin range:
`A`–`Z` map to `a`–`z`, all other characters are unchanged. -/
def toLowerChar (c : Char) : Char :=
  if 65 ≤ c.toNat ∧ c.toNat ≤ 90 then Char.ofNat (c.toNat + 32) else c

/-- `String.prototype.toLowerCase` over the whole string. -/
def lowerL (s : List Char) : List Char := s.map toLowerChar

/-- `String.prototype.trim`: drop leading and trailing whitespace. -/
def trimL (s : List Char) : List Char :=
  ((s.dropWhile isWsChar).reverse.dropWhile isWsChar).reverse

/-- `input.replace(/^\/+/, '')`: drop every leading `/`. -/
def stripSlashes (s : List Char) : List Char :=
  s.dropWhile (fun c => c.toNat = 47)

/-- Numeric value of a list of decimal digit characters (the capture groups of
the coordinate regex), most significant first. -/
def digitsToNat (ds : List Char) : Nat :=
  ds.foldl (fun a c => 10 * a + (c.toNat - 48)) 0

/-- Match the unsigned regex fragment `\d+\.?\d*` at the front of `s1`:
one or more integer digits, an optional dot, and optional fractional digits,
greedily. Returns the `parseFloat` value of the matched text (exact, as a
rational) and the unconsumed remainder; `none` when the fragment does not
match. -/
def matchUnsigned (s1 : List Char) : Option (ℚ × List Char) :=
  let ds := s1.takeWhile isDigitChar
  let r1 := s1.dropWhile isDigitChar
  if ds = [] then none
  else
    let fsRest : List Char × List Char :=
      if r1.head? = some '.' then
        (r1.tail.takeWhile isDigitChar, r1.tail.dropWhile isDigitChar)
      else ([], r1)
    some
      (mkRat (digitsToNat ds * 10 ^ fsRest.1.length + digitsToNat fsRest.1)
         (10 ^ fsRest.1.length),
       fsRest.2)

/-- Match one signed decimal number, the regex fragment `-?\d+\.?\d*`
(as used in `/^(-?\d+\.?\d*),(-?\d+\.?\d*)$/`), at the front of `s`.
The fragment is deterministic: no backtracking alternative can succeed when
the greedy parse fails, because a digit can follow neither `\d*` nor `\d+`
without being consumed, and `,` (the only continuation in the full regex)
is neither a digit nor a dot. -/
def matchNum (s : List Char) : Option (ℚ × List Char) :=
  let neg : Bool := decide (s.head? = some '-')
  let s1 := if neg then s.tail else s
  match matchUnsigned s1 with
  | none => none
  | some (m, rest) => some (if neg then -m else m, rest)

/-- The coordinate pattern `words.match(/^(-?\d+\.?\d*),(-?\d+\.?\d*)$/)`:
both capture groups parsed with `parseFloat` on success. -/
def coordsMatch (s : List Char) : Option (ℚ × ℚ) :=
  match matchNum s with
  | some (lat, ',' :: rest) =>
    match matchNum rest with
    | some (lng, []) => some (lat, lng)
    | _ => none
  | _ => none

/-- The what3words pattern `words.match(/^([a-z]+)\.([a-z]+)\.([a-z]+)$/)`:
three nonempty runs of `[a-z]` joined by two literal dots. -/
def w3wMatch (s : List Char) : Bool :=
  let w1 := s.takeWhile isLowerAlpha
  let r1 := s.dropWhile isLowerAlpha
  match r1 with
  | '.' :: r2 =>
    let w2 := r2.takeWhile isLowerAlpha
    let r3 := r2.dropWhile isLowerAlpha
    match r3 with
    | '.' :: r4 =>
      let w3 := r4.takeWhile isLowerAlpha
      let r5 := r4.dropWhile isLowerAlpha
      !w1.isEmpty && !w2.isEmpty && !w3.isEmpty && r5.isEmpty
    | _ => false
  | _ => false

/-- The `Coordinates` record of `src/types/location.ts`. -/
structure Coordinates where
  lat : ℚ
  lng : ℚ
deriving DecidableEq, Repr

/-- The message of the `LocationProcessingError` thrown for an out-of-range
coordinate pair in `processLocation`. -/
def invalidCoordMsg : String :=
  "Invalid coordinate values. Latitude must be between -90 and 90, longitude between -180 and 180."

/-- Outcome of the synchronous part of `processLocation`:
`coords` — a validated coordinate pair is returned;
`formatError` — a `LocationProcessingError` is thrown before any network call;
`w3wLookup` — the input matched the three-word pattern and control passes to
the remote what3words lookup with the cleaned words string;
`notALocation` — the function returns `null`. -/
inductive LocOutcome where
  | coords (c : Coordinates)
  | formatError (msg : String)
  | w3wLookup (words : List Char)
  | notALocation
deriving DecidableEq, Repr

/-- The synchronous decision logic of `processLocation`
(`src/services/locationProcessor.ts`, lines 7–31): trim, lowercase, strip
leading slashes, try the coordinate regex (validating ranges inclusively),
then the what3words regex, else return the `null` sentinel. -/
def processLocation (input : List Char) : LocOutcome :=
  let cleanInput := lowerL (trimL input)
  let words := stripSlashes cleanInput
  match coordsMatch words with
  | some (lat, lng) =>
    if -90 ≤ lat ∧ lat ≤ 90 ∧ -180 ≤ lng ∧ lng ≤ 180 then
      .coords ⟨lat, lng⟩
    else
      .formatError invalidCoordMsg
  | none =>
    if w3wMatch words then .w3wLookup words else .notALocation

/-- The text matched by one capture group `-?\d+\.?\d*` of the coordinate
regex: an optional minus sign, the integer digits, an optional dot and the
fractional digits. -/
structure DecNumeral where
  neg : Bool
  intDigits : List Char
  hasDot : Bool
  fracDigits : List Char

/-- Well-formedness of a `DecNumeral`: at least one integer digit, all digit
characters really are digits, and fractional digits only after a dot. -/
def DecNumeral.WF (n : DecNumeral) : Prop :=
  n.intDigits ≠ [] ∧ (∀ c ∈ n.intDigits, isDigitChar c = true) ∧
    (∀ c ∈ n.fracDigits, isDigitChar c = true) ∧ (n.hasDot = false → n.fracDigits = [])

instance (n : DecNumeral) : Decidable n.WF := by
  unfold DecNumeral.WF; infer_instance

/-- The character list of the numeral. -/
def DecNumeral.render (n : DecNumeral) : List Char :=
  (if n.neg then ['-'] else []) ++ n.intDigits ++ (if n.hasDot then '.' :: n.fracDigits else [])

/-- The `parseFloat` value of the numeral, exact as a rational. -/
def DecNumeral.val (n : DecNumeral) : ℚ :=
  let m : ℚ := mkRat
    (digitsToNat n.intDigits * 10 ^ n.fracDigits.length + digitsToNat n.fracDigits)
    (10 ^ n.fracDigits.length)
  if n.neg then -m else m

/-- Does `s` start with `pat`? -/
def startsWithL : List Char → List Char → Bool
  | [], _ => true
  | _ :: _, [] => false
  | p :: ps, c :: cs => p = c && startsWithL ps cs

/-- Does `pat` occur as a contiguous substring of the second argument? -/
def containsSub (pat : List Char) : List Char → Bool
  | [] => startsWithL pat []
  | c :: rest => startsWithL pat (c :: rest) || containsSub pat rest

/-! ### The weather provider manager (`src/services/weatherManager.ts`) -/

/-- A JS error captured by the manager: either a `WeatherServiceError`
(`src/types/weather.ts`), which carries the throwing provider's name, or any
other `Error`, which carries only a message. -/
inductive PError where
  | service (provider : String) (msg : String)
  | generic (msg : String)
deriving DecidableEq, Repr

/-- `StandardizedForecast.current` (`src/types/weather.ts`). -/
structure CurrentConditions where
  temp : ℚ
  feelsLike : ℚ
  humidity : ℚ
  description : String
deriving DecidableEq, Repr

/-- One entry of `StandardizedForecast.hourly`. -/
structure HourlyEntry where
  timestamp : ℤ
  temp : ℚ
  description : String
deriving DecidableEq, Repr

/-- `StandardizedForecast.summary`. -/
structure ForecastSummary where
  high : ℚ
  low : ℚ
  predominantCondition : String
deriving DecidableEq, Repr

/-- The `StandardizedForecast` record (`src/types/weather.ts`). -/
structure StandardizedForecast where
  location : String
  current : CurrentConditions
  hourly : List HourlyEntry
  summary : ForecastSummary
deriving DecidableEq, Repr

deriving instance DecidableEq for Except

/-- One registered provider, as observed by a single `getForecast(lat, lng)`
call of the manager: `name` is `getName()`, `availResult` the behaviour of the
`isAvailable()` probe (`.error` — the probe throws), `forecastResult` the
behaviour of `getForecast` at the call's coordinates. -/
structure Provider where
  name : String
  availResult : Except PError Bool
  forecastResult : Except PError StandardizedForecast
deriving DecidableEq

/-- `this.providers.get(name)`: the providers `Map` keyed by `getName()`
(provider names are pairwise distinct in every configuration considered). -/
def lookupProvider (providers : List Provider) (name : String) : Option Provider :=
  providers.find? (fun p => p.name == name)

/-- Fractional decimal digits of `r / d` (with `r < d`), most significant
first, stopping when the remainder vanishes; `fuel` bounds the length. -/
def fracDigitsAux : Nat → Nat → Nat → List Char
  | 0, _, _ => []
  | _ + 1, 0, _ => []
  | fuel + 1, r, d => Char.ofNat (48 + r * 10 / d) :: fracDigitsAux fuel (r * 10 % d) d

/-- JS template-literal rendering `${q}` of a number, modelled for the
decimal-representable rationals produced by the adapters: an optional minus
sign, the integer part, and the exact fractional expansion (empty for whole
numbers, as in JS, where `${15}` is `"15"` and `${15.5}` is `"15.5"`). -/
def renderNum (q : ℚ) : List Char :=
  (if q.num < 0 then ['-'] else []) ++
    Nat.toDigits 10 (q.num.natAbs / q.den) ++
    (let f := fracDigitsAux 30 (q.num.natAbs % q.den) q.den
     if f = [] then [] else '.' :: f)

/-- Rendering of a whole number (a rational with denominator 1): an optional
minus sign followed by the decimal digits — the "whole degree" form in which
the spec expects temperatures to appear. -/
def renderInt (q : ℚ) : List Char :=
  (if q.num < 0 then ['-'] else []) ++ Nat.toDigits 10 q.num.natAbs

/-- `Array.prototype.join(sep)`. -/
def joinSep (sep : List Char) : List (List Char) → List Char
  | [] => []
  | [x] => x
  | x :: y :: rest => x ++ sep ++ joinSep sep (y :: rest)

/-- `WeatherServiceManager.formatForecast` (lines 98–135): the fixed
four-section reply template. `renderTime` is the oracle for the locale- and
timezone-dependent `new Date(timestamp * 1000).toLocaleTimeString('en-US',
...)` call, applied to the entry's epoch-seconds timestamp. -/
def formatForecast (renderTime : ℤ → List Char) (f : StandardizedForecast)
    (providerName : String) : List Char :=
  let immediate := joinSep ['\n']
    [renderNum f.current.temp ++ "°C ".toList ++ f.current.description.toList,
     "Feels like ".toList ++ renderNum f.current.feelsLike ++ "°C".toList,
     "Humidity: ".toList ++ renderNum f.current.humidity ++ "%".toList]
  let upcoming := joinSep ['\n']
    (f.hourly.map fun h =>
      renderTime h.timestamp ++ ": ".toList ++ renderNum h.temp ++ "°C ".toList
        ++ h.description.toList)
  let summaryText := joinSep ['\n']
    ["High: ".toList ++ renderNum f.summary.high ++ "°C Low: ".toList
       ++ renderNum f.summary.low ++ "°C".toList,
     "Predominantly ".toList ++ f.summary.predominantCondition.toList]
  "Weather forecast for ".toList ++ f.location.toList ++ ":\n(via ".toList
    ++ providerName.toList ++ ")\n\nRight now:\n".toList ++ immediate
    ++ "\n\nNext few hours:\n".toList ++ upcoming
    ++ "\n\n12-hour outlook:\n".toList ++ summaryText

/-- Book-keeping of one `getForecast` call: `errors` is the `errors` array,
`probed` lists the providers whose `isAvailable()` was invoked (in order),
`fetched` those whose `getForecast` was invoked. -/
structure AttemptState where
  errors : List PError
  probed : List String
  fetched : List String
deriving DecidableEq, Repr

/-- One `try { if (await provider.isAvailable()) { ... } } catch { errors.push }`
block, shared verbatim by the preferred-provider phase (lines 51–61) and the
loop body (lines 73–84): a thrown probe error or fetch error is appended to
`errors`; an `isAvailable() === false` result records nothing. -/
def attemptProvider (p : Provider) (st : AttemptState) :
    Option StandardizedForecast × AttemptState :=
  match p.availResult with
  | .error e =>
    (none, ⟨st.errors ++ [e], st.probed ++ [p.name], st.fetched⟩)
  | .ok false =>
    (none, ⟨st.errors, st.probed ++ [p.name], st.fetched⟩)
  | .ok true =>
    match p.forecastResult with
    | .error e =>
      (none, ⟨st.errors ++ [e], st.probed ++ [p.name], st.fetched ++ [p.name]⟩)
    | .ok f =>
      (some f, ⟨st.errors, st.probed ++ [p.name], st.fetched ++ [p.name]⟩)

/-- Result of the priority-order loop. -/
inductive LoopResult where
  | success (forecast : StandardizedForecast) (providerName : String) (st : AttemptState)
  | exhausted (st : AttemptState)
deriving DecidableEq, Repr

/-- The `for (const providerName of this.priorityOrder)` loop (lines 66–85):
skip the name equal to the preferred one (only when a preferred name was
given), skip unregistered names, and otherwise run the shared attempt block,
returning on the first successful fetch. -/
def tryInOrder (providers : List Provider) (skip : Option String)
    (order : List String) (st : AttemptState) : LoopResult :=
  match order with
  | [] => .exhausted st
  | name :: rest =>
    if skip = some name then tryInOrder providers skip rest st
    else
      match lookupProvider providers name with
      | none => tryInOrder providers skip rest st
      | some p =>
        match attemptProvider p st with
        | (some f, st1) => .success f p.name st1
        | (none, st1) => tryInOrder providers skip rest st1

/-- Rendering of one captured error in the aggregate message (lines 89–93):
`e instanceof WeatherServiceError ? provider + ": " + message : message`. -/
def renderPError : PError → List Char
  | .service p m => p.toList ++ ": ".toList ++ m.toList
  | .generic m => m.toList

/-- The message of the error thrown when every provider was skipped or failed
(line 95). -/
def allFailedMessage (errors : List PError) : List Char :=
  "Unable to fetch weather data: ".toList ++ joinSep "; ".toList (errors.map renderPError)

/-- Result of one `WeatherServiceManager.getForecast` call: the returned
formatted reply or the thrown error message, together with the final
book-keeping state. -/
structure GFResult where
  outcome : Except (List Char) (List Char)
  finalState : AttemptState
deriving DecidableEq, Repr

/-- Wrap the loop result exactly as `getForecast` does: format the winning
forecast, or throw the aggregate error. -/
def finishLoop (renderTime : ℤ → List Char) : LoopResult → GFResult
  | .success f nm st => ⟨.ok (formatForecast renderTime f nm), st⟩
  | .exhausted st => ⟨.error (allFailedMessage st.errors), st⟩

/-- The preferred-provider phase of `getForecast` (lines 48–63): when a
preferred name is given and registered, run the shared attempt block on it;
the result carries either the successful forecast with the provider's
`getName()` or the state (captured errors, probes) to start the loop with. -/
def prefAttempt (providers : List Provider) : Option String →
    Option (StandardizedForecast × String) × AttemptState
  | none => (none, ⟨[], [], []⟩)
  | some name =>
    match lookupProvider providers name with
    | none => (none, ⟨[], [], []⟩)
    | some p =>
      match attemptProvider p ⟨[], [], []⟩ with
      | (some f, st) => (some (f, p.name), st)
      | (none, st) => (none, st)

/-- `WeatherServiceManager.getForecast` (lines 44–96): the preferred-provider
phase, then the priority-order loop on the state it leaves, returning the
first successful provider's formatted forecast or throwing the aggregate
error. A `preferred` value of `some name` models a call with a nonempty
`preferredProvider` string (JS treats the empty string as falsy, i.e. as no
preference). -/
def getForecast (renderTime : ℤ → List Char) (providers : List Provider)
    (priorityOrder : List String) (preferred : Option String) : GFResult :=
  match prefAttempt providers preferred with
  | (some (f, nm), st) => ⟨.ok (formatForecast renderTime f nm), st⟩
  | (none, st) => finishLoop renderTime (tryInOrder providers preferred priorityOrder st)

/-- Key list of `new Map(providers.map(p => [p.getName(), p]))`: first
occurrence of each name keeps its position, later duplicates only overwrite
the value. -/
def mapKeys : List String → List String
  | [] => []
  | n :: rest => n :: (mapKeys rest).filter (fun m => m ≠ n)

/-- `String.prototype.split(',')`: split at every comma; adjacent commas and
string ends produce empty chunks, exactly as in JS. -/
def splitComma : List Char → List (List Char)
  | [] => [[]]
  | c :: rest =>
    if c = ',' then [] :: splitComma rest
    else
      match splitComma rest with
      | [] => [[c]]
      | w :: ws => (c :: w) :: ws

/-- The trimmed entries of the priority hint:
`priorityString.split(',').map(name => name.trim())`. -/
def hintNames (s : String) : List String :=
  (splitComma s.toList).map (fun t => String.mk (trimL t))

/-- Construction of `this.priorityOrder` (constructor, lines 18–34):
with a priority hint, split it on commas, trim each entry, keep only
registered names, and append the registered names missing from that list in
registration order; without a hint, the providers' original order. -/
def buildPriorityOrder (providerNames : List String) (priorityString : Option String) :
    List String :=
  match priorityString with
  | none => providerNames
  | some s =>
    let keys := mapKeys providerNames
    let filtered := (hintNames s).filter (fun n => keys.contains n)
    filtered ++ keys.filter (fun n => !filtered.contains n)

/-! ## Helper lemmas -/

theorem takeWhile_append_all {p : Char → Bool} {l t : List Char}
    (h : ∀ c ∈ l, p c = true) :
    (l ++ t).takeWhile p = l ++ t.takeWhile p := by
  induction l with
  | nil => simp
  | cons c l ih =>
    have hc := h c (by simp)
    simp [List.takeWhile_cons, hc, ih (fun d hd => h d (by simp [hd]))]

theorem dropWhile_append_all {p : Char → Bool} {l t : List Char}
    (h : ∀ c ∈ l, p c = true) :
    (l ++ t).dropWhile p = t.dropWhile p := by
  induction l with
  | nil => simp
  | cons c l ih =>
    have hc := h c (by simp)
    simp [List.dropWhile_cons, hc, ih (fun d hd => h d (by simp [hd]))]

theorem takeWhile_head_none {p : Char → Bool} {t : List Char}
    (h : ∀ c, t.head? = some c → p c = false) : t.takeWhile p = [] := by
  cases t with
  | nil => rfl
  | cons c cs => simp [List.takeWhile_cons, h c rfl]

theorem dropWhile_head_none {p : Char → Bool} {t : List Char}
    (h : ∀ c, t.head? = some c → p c = false) : t.dropWhile p = t := by
  cases t with
  | nil => rfl
  | cons c cs => simp [List.dropWhile_cons, h c rfl]

theorem dropWhile_all_false {p : Char → Bool} {s : List Char}
    (h : ∀ c ∈ s, p c = false) : s.dropWhile p = s := by
  cases s with
  | nil => rfl
  | cons c cs => simp [List.dropWhile_cons, h c (by simp)]

theorem trimL_eq_self {s : List Char} (h : ∀ c ∈ s, isWsChar c = false) : trimL s = s := by
  unfold trimL
  rw [dropWhile_all_false h,
    dropWhile_all_false (fun c hc => h c (List.mem_reverse.mp hc)), List.reverse_reverse]

theorem lowerL_eq_self {s : List Char} (h : ∀ c ∈ s, toLowerChar c = c) : lowerL s = s := by
  unfold lowerL
  rw [List.map_congr_left h]
  exact List.map_id s

theorem stripSlashes_head {s : List Char}
    (h : ∀ c, s.head? = some c → c.toNat ≠ 47) : stripSlashes s = s := by
  unfold stripSlashes
  cases s with
  | nil => rfl
  | cons c cs => simp [List.dropWhile_cons, h c rfl]

theorem plain_not_ws {c : Char}
    (h : isDigitChar c = true ∨ c = '-' ∨ c = '.' ∨ c = ',') : isWsChar c = false := by
  rcases h with h | h | h | h
  · simp only [isDigitChar, Bool.and_eq_true, decide_eq_true_eq] at h
    simp only [isWsChar, Bool.or_eq_false_iff, decide_eq_false_iff_not]
    omega
  all_goals subst h; decide

theorem plain_toLower {c : Char}
    (h : isDigitChar c = true ∨ c = '-' ∨ c = '.' ∨ c = ',') : toLowerChar c = c := by
  rcases h with h | h | h | h
  · simp only [isDigitChar, Bool.and_eq_true, decide_eq_true_eq] at h
    unfold toLowerChar
    rw [if_neg]; omega
  all_goals subst h; decide

theorem render_chars {n : DecNumeral} (hwf : n.WF) :
    ∀ c ∈ n.render, isDigitChar c = true ∨ c = '-' ∨ c = '.' := by
  obtain ⟨-, hint, hfrac, -⟩ := hwf
  intro c hc
  unfold DecNumeral.render at hc
  simp only [List.append_assoc, List.mem_append] at hc
  rcases hc with hc | hc | hc
  · cases hn : n.neg <;> rw [hn] at hc <;> simp at hc
    exact Or.inr (Or.inl hc)
  · exact Or.inl (hint c hc)
  · cases hd : n.hasDot <;> rw [hd] at hc <;> simp at hc
    rcases hc with hc | hc
    · exact Or.inr (Or.inr hc)
    · exact Or.inl (hfrac c hc)

theorem matchUnsigned_dot (ids fds rest : List Char) (hne : ids ≠ [])
    (hint : ∀ c ∈ ids, isDigitChar c = true) (hfrac : ∀ c ∈ fds, isDigitChar c = true)
    (hrest : ∀ c, rest.head? = some c → isDigitChar c = false ∧ c ≠ '.') :
    matchUnsigned (ids ++ ('.' :: (fds ++ rest))) =
      some (mkRat (digitsToNat ids * 10 ^ fds.length + digitsToNat fds) (10 ^ fds.length),
            rest) := by
  have hrd : ∀ c, rest.head? = some c → isDigitChar c = false := fun c h => (hrest c h).1
  have hdd : isDigitChar '.' = false := by decide
  have e1 : List.takeWhile isDigitChar (ids ++ ('.' :: (fds ++ rest))) = ids := by
    rw [takeWhile_append_all hint]
    simp [List.takeWhile_cons, hdd]
  have e2 : List.dropWhile isDigitChar (ids ++ ('.' :: (fds ++ rest))) =
      '.' :: (fds ++ rest) := by
    rw [dropWhile_append_all hint]
    simp [List.dropWhile_cons, hdd]
  have e3 : List.takeWhile isDigitChar (fds ++ rest) = fds := by
    rw [takeWhile_append_all hfrac, takeWhile_head_none hrd]
    simp
  have e4 : List.dropWhile isDigitChar (fds ++ rest) = rest := by
    rw [dropWhile_append_all hfrac, dropWhile_head_none hrd]
  simp only [matchUnsigned, e1, e2, if_neg hne, List.head?_cons, List.tail_cons]
  simp [e3, e4]

theorem matchUnsigned_nodot (ids rest : List Char) (hne : ids ≠ [])
    (hint : ∀ c ∈ ids, isDigitChar c = true)
    (hrest : ∀ c, rest.head? = some c → isDigitChar c = false ∧ c ≠ '.') :
    matchUnsigned (ids ++ rest) = some (mkRat (digitsToNat ids) 1, rest) := by
  have hrd : ∀ c, rest.head? = some c → isDigitChar c = false := fun c h => (hrest c h).1
  have e1 : List.takeWhile isDigitChar (ids ++ rest) = ids := by
    rw [takeWhile_append_all hint, takeWhile_head_none hrd]
    simp
  have e2 : List.dropWhile isDigitChar (ids ++ rest) = rest := by
    rw [dropWhile_append_all hint, dropWhile_head_none hrd]
  have e3 : ¬(rest.head? = some '.') := by
    cases hr : rest with
    | nil => simp
    | cons c cs =>
      have := (hrest c (by rw [hr]; rfl)).2
      simp [this]
  simp only [matchUnsigned, e1, e2, if_neg hne]
  rw [if_neg e3]
  simp [digitsToNat]

theorem matchNum_render (n : DecNumeral) (hwf : n.WF) (rest : List Char)
    (hrest : ∀ c, rest.head? = some c → isDigitChar c = false ∧ c ≠ '.') :
    matchNum (n.render ++ rest) = some (n.val, rest) := by
  obtain ⟨hne, hint, hfrac, hdot⟩ := hwf
  have hu : matchUnsigned (n.intDigits ++ ((if n.hasDot then '.' :: n.fracDigits else []) ++ rest))
      = some (mkRat (digitsToNat n.intDigits * 10 ^ n.fracDigits.length +
                digitsToNat n.fracDigits) (10 ^ n.fracDigits.length), rest) := by
    cases hd : n.hasDot with
    | true =>
      simpa using matchUnsigned_dot n.intDigits n.fracDigits rest hne hint hfrac hrest
    | false =>
      have hf : n.fracDigits = [] := hdot hd
      rw [hf]
      simpa [digitsToNat] using matchUnsigned_nodot n.intDigits rest hne hint hrest
  cases hn : n.neg with
  | true =>
    have hs : n.render ++ rest =
        '-' :: (n.intDigits ++ ((if n.hasDot then '.' :: n.fracDigits else []) ++ rest)) := by
      unfold DecNumeral.render
      rw [hn]; simp
    have hv : n.val = -(mkRat (digitsToNat n.intDigits * 10 ^ n.fracDigits.length +
        digitsToNat n.fracDigits) (10 ^ n.fracDigits.length)) := by
      unfold DecNumeral.val
      rw [hn]
      simp
    rw [hs, hv]
    simp [matchNum, hu]
  | false =>
    obtain ⟨d, ds, hds⟩ := List.exists_cons_of_ne_nil hne
    have hd_digit : isDigitChar d = true := hint d (by rw [hds]; simp)
    have hd_ne : ¬((n.intDigits ++ ((if n.hasDot then '.' :: n.fracDigits else []) ++
        rest)).head? = some '-') := by
      rw [hds]
      simp only [List.cons_append, List.head?_cons, Option.some.injEq]
      intro h
      rw [h] at hd_digit
      exact absurd hd_digit (by decide)
    have hs : n.render ++ rest =
        n.intDigits ++ ((if n.hasDot then '.' :: n.fracDigits else []) ++ rest) := by
      unfold DecNumeral.render
      rw [hn]; simp
    have hv : n.val = mkRat (digitsToNat n.intDigits * 10 ^ n.fracDigits.length +
        digitsToNat n.fracDigits) (10 ^ n.fracDigits.length) := by
      unfold DecNumeral.val
      rw [hn]
      simp
    rw [hs, hv]
    simp only [matchNum]
    rw [decide_eq_false hd_ne]
    simp [hu]

theorem coordsMatch_render (a b : DecNumeral) (ha : a.WF) (hb : b.WF) :
    coordsMatch (a.render ++ ',' :: b.render) = some (a.val, b.val) := by
  have h1 : matchNum (a.render ++ ',' :: b.render) = some (a.val, ',' :: b.render) := by
    apply matchNum_render a ha
    intro c hc
    simp only [List.head?_cons, Option.some.injEq] at hc
    rw [← hc]
    refine ⟨by decide, by decide⟩
  have h2 : matchNum (b.render ++ []) = some (b.val, []) := by
    apply matchNum_render b hb
    intro c hc
    simp at hc
  rw [List.append_nil] at h2
  unfold coordsMatch
  rw [h1]
  simp [h2]

theorem renderPair_clean (a b : DecNumeral) (ha : a.WF) (hb : b.WF) :
    stripSlashes (lowerL (trimL (a.render ++ ',' :: b.render))) =
      a.render ++ ',' :: b.render := by
  have hmem : ∀ c ∈ a.render ++ ',' :: b.render,
      isDigitChar c = true ∨ c = '-' ∨ c = '.' ∨ c = ',' := by
    intro c hc
    simp only [List.mem_append, List.mem_cons] at hc
    rcases hc with hc | hc | hc
    · rcases render_chars ha c hc with h | h | h
      · exact Or.inl h
      · exact Or.inr (Or.inl h)
      · exact Or.inr (Or.inr (Or.inl h))
    · exact Or.inr (Or.inr (Or.inr hc))
    · rcases render_chars hb c hc with h | h | h
      · exact Or.inl h
      · exact Or.inr (Or.inl h)
      · exact Or.inr (Or.inr (Or.inl h))
  have htrim : trimL (a.render ++ ',' :: b.render) = a.render ++ ',' :: b.render :=
    trimL_eq_self (fun c hc => plain_not_ws (hmem c hc))
  have hlower : lowerL (a.render ++ ',' :: b.render) = a.render ++ ',' :: b.render :=
    lowerL_eq_self (fun c hc => plain_toLower (hmem c hc))
  rw [htrim, hlower]
  apply stripSlashes_head
  intro c hc
  have hcm : c ∈ a.render ++ ',' :: b.render := by
    cases hl : a.render ++ ',' :: b.render with
    | nil => rw [hl] at hc; simp at hc
    | cons d t =>
      rw [hl] at hc
      simp only [List.head?_cons, Option.some.injEq] at hc
      rw [← hc]
      simp
  rcases hmem c hcm with h | h | h | h
  · simp only [isDigitChar, Bool.and_eq_true, decide_eq_true_eq] at h
    omega
  all_goals rw [h]; decide

theorem processLocation_renderPair (a b : DecNumeral) (ha : a.WF) (hb : b.WF) :
    processLocation (a.render ++ ',' :: b.render) =
      if -90 ≤ a.val ∧ a.val ≤ 90 ∧ -180 ≤ b.val ∧ b.val ≤ 180 then
        .coords ⟨a.val, b.val⟩
      else .formatError invalidCoordMsg := by
  simp only [processLocation]
  rw [renderPair_clean a b ha hb, coordsMatch_render a b ha hb]

theorem toNat_ofNat_lower {m : Nat} (h1 : 97 ≤ m) (h2 : m ≤ 122) :
    (Char.ofNat m).toNat = m := by
  have hv : m.isValidChar := Or.inl (by omega)
  rw [Char.ofNat, dif_pos hv]
  rfl

theorem isWs_toLower (c : Char) : isWsChar (toLowerChar c) = isWsChar c := by
  unfold toLowerChar
  by_cases h : 65 ≤ c.toNat ∧ c.toNat ≤ 90
  · rw [if_pos h]
    have ht : (Char.ofNat (c.toNat + 32)).toNat = c.toNat + 32 :=
      toNat_ofNat_lower (by omega) (by omega)
    have h1 : isWsChar (Char.ofNat (c.toNat + 32)) = false := by
      simp only [isWsChar, ht, Bool.or_eq_false_iff, decide_eq_false_iff_not]
      omega
    have h2 : isWsChar c = false := by
      simp only [isWsChar, Bool.or_eq_false_iff, decide_eq_false_iff_not]
      omega
    rw [h1, h2]
  · rw [if_neg h]

theorem toLower_idem (c : Char) : toLowerChar (toLowerChar c) = toLowerChar c := by
  by_cases h : 65 ≤ c.toNat ∧ c.toNat ≤ 90
  · have h1 : toLowerChar c = Char.ofNat (c.toNat + 32) := by
      unfold toLowerChar
      rw [if_pos h]
    have ht : (Char.ofNat (c.toNat + 32)).toNat = c.toNat + 32 :=
      toNat_ofNat_lower (by omega) (by omega)
    rw [h1]
    unfold toLowerChar
    rw [if_neg (by rw [ht]; omega)]
  · have h1 : toLowerChar c = c := by
      unfold toLowerChar
      rw [if_neg h]
    rw [h1, h1]

theorem lowerL_idem (s : List Char) : lowerL (lowerL s) = lowerL s := by
  unfold lowerL
  rw [List.map_map]
  exact List.map_congr_left (fun c _ => toLower_idem c)

theorem trimL_lowerL (s : List Char) : trimL (lowerL s) = lowerL (trimL s) := by
  have hpf : (isWsChar ∘ toLowerChar) = isWsChar := funext isWs_toLower
  unfold trimL lowerL
  rw [List.dropWhile_map, hpf, ← List.map_reverse, List.dropWhile_map, hpf, ← List.map_reverse]

/-! ## Claim theorems: the location parser -/

/-- C3: for every pair of decimal numerals written as the string `lat,lng`,
`processLocation` returns exactly the pair when the latitude lies in
`[-90, 90]` and the longitude in `[-180, 180]` (bounds inclusive), and fails
with the parser's `LocationProcessingError` format error when either number
lies outside its range. -/
theorem c3_decimal_pair_bounds (a b : DecNumeral) (ha : a.WF) (hb : b.WF) :
    ((-90 ≤ a.val ∧ a.val ≤ 90 ∧ -180 ≤ b.val ∧ b.val ≤ 180) →
      processLocation (a.render ++ ',' :: b.render) = .coords ⟨a.val, b.val⟩) ∧
    (¬(-90 ≤ a.val ∧ a.val ≤ 90 ∧ -180 ≤ b.val ∧ b.val ≤ 180) →
      processLocation (a.render ++ ',' :: b.render) = .formatError invalidCoordMsg) := by
  constructor <;> intro h <;> rw [processLocation_renderPair a b ha hb]
  · rw [if_pos h]
  · rw [if_neg h]

/-- Witness for C3: the boundary inputs `"90,180"` and `"-90,-180"` succeed
(inclusive bounds) and `"90.0001,0"` fails with the format error. -/
theorem c3_decimal_pair_bounds_witness :
    processLocation ("90,180".toList) = .coords ⟨90, 180⟩ ∧
    processLocation ("-90,-180".toList) = .coords ⟨-90, -180⟩ ∧
    processLocation ("90.0001,0".toList) = .formatError invalidCoordMsg := by
  refine ⟨?_, ?_, ?_⟩
  · have h := (c3_decimal_pair_bounds ⟨false, ['9', '0'], false, []⟩
      ⟨false, ['1', '8', '0'], false, []⟩ (by decide) (by decide)).1 (by decide)
    revert h
    decide
  · have h := (c3_decimal_pair_bounds ⟨true, ['9', '0'], false, []⟩
      ⟨true, ['1', '8', '0'], false, []⟩ (by decide) (by decide)).1 (by decide)
    revert h
    decide
  · have h := (c3_decimal_pair_bounds ⟨false, ['9', '0'], true, ['0', '0', '0', '1']⟩
      ⟨false, ['0'], false, []⟩ (by decide) (by decide)).2 (by decide)
    revert h
    decide

/-- C7 counterexample: the claim says a parenthesized, spaced decimal pair
such as `"(51.5, -0.1)"` is recognized as Pattern A and returns the
coordinate pair; the code's regex `/^(-?\d+\.?\d*),(-?\d+\.?\d*)$/` does not
match it, so `processLocation` falls through to the `NotALocation` sentinel
instead. -/
theorem c7_extended_formats_counterexample :
    processLocation ("(51.5, -0.1)".toList) = .notALocation ∧
    processLocation ("(51.5, -0.1)".toList) ≠
      .coords ⟨mkRat 515 10, -(mkRat 1 10)⟩ := by
  constructor <;> decide

/-- C7 amended: Pattern A recognizes exactly a bare signed-decimal pair
`lat,lng` (after outer trimming, lowercasing and slash stripping); every such
in-range input returns the coordinate pair directly (the `.coords` outcome,
never the `.w3wLookup` hand-off to the remote service); surrounding
parentheses, whitespace after the comma, cardinal-direction suffixes and
degree symbols are not recognized and such inputs fall through to
`NotALocation`. -/
theorem c7_decimal_pattern_amended (a b : DecNumeral) (ha : a.WF) (hb : b.WF)
    (hin : -90 ≤ a.val ∧ a.val ≤ 90 ∧ -180 ≤ b.val ∧ b.val ≤ 180) :
    processLocation (a.render ++ ',' :: b.render) = .coords ⟨a.val, b.val⟩ ∧
    processLocation ("(51.5, -0.1)".toList) = .notALocation ∧
    processLocation ("51.5074°n, 0.1278°w".toList) = .notALocation ∧
    processLocation ("51.5074n, 0.1278w".toList) = .notALocation ∧
    processLocation ("51.5074, -0.1278".toList) = .notALocation := by
  refine ⟨?_, by decide, by decide, by decide, by decide⟩
  rw [processLocation_renderPair a b ha hb, if_pos hin]

/-- Witness for the amended C7 at the in-range input `"51.5,-0.1"`. -/
theorem c7_decimal_pattern_amended_witness :
    processLocation ("51.5,-0.1".toList) = .coords ⟨mkRat 515 10, -(mkRat 1 10)⟩ := by
  have h := (c7_decimal_pattern_amended ⟨false, ['5', '1'], true, ['5']⟩
    ⟨true, ['0'], true, ['1']⟩ (by decide) (by decide) (by decide)).1
  revert h
  decide

/-- C8: every input whose cleaned form matches neither the coordinate regex
nor the three-word regex produces the `NotALocation` sentinel (the `null`
success value), not an error. -/
theorem c8_neither_pattern_notALocation (input : List Char)
    (hc : coordsMatch (stripSlashes (lowerL (trimL input))) = none)
    (hw : w3wMatch (stripSlashes (lowerL (trimL input))) = false) :
    processLocation input = .notALocation := by
  simp only [processLocation]
  rw [hc, hw]
  simp

/-- Witness for C8 at the input `"hello world"`. -/
theorem c8_neither_pattern_notALocation_witness :
    coordsMatch (stripSlashes (lowerL (trimL ("hello world".toList)))) = none ∧
    w3wMatch (stripSlashes (lowerL (trimL ("hello world".toList)))) = false ∧
    processLocation ("hello world".toList) = .notALocation :=
  ⟨by decide, by decide, c8_neither_pattern_notALocation _ (by decide) (by decide)⟩

/-- C10: `processLocation` is case-insensitive — lowercasing the input first
never changes the outcome (the parser lowercases internally and lowercasing
is idempotent and commutes with trimming); in particular a mixed-case
three-word address resolves exactly like its lowercase form. -/
theorem c10_case_insensitive :
    (∀ input : List Char, processLocation (lowerL input) = processLocation input) ∧
    processLocation ("Filled.Count.Soap".toList) =
      processLocation ("filled.count.soap".toList) ∧
    processLocation ("Filled.Count.Soap".toList) =
      .w3wLookup ("filled.count.soap".toList) := by
  refine ⟨?_, by decide, by decide⟩
  intro input
  have hkey : lowerL (trimL (lowerL input)) = lowerL (trimL input) := by
    rw [trimL_lowerL, lowerL_idem]
  simp only [processLocation, hkey]

/-! ## Claim theorems: priority-order construction -/

theorem mapKeys_eq_self {l : List String} (h : l.Nodup) : mapKeys l = l := by
  induction l with
  | nil => rfl
  | cons n rest ih =>
    rw [mapKeys]
    obtain ⟨hn, hrest⟩ := List.nodup_cons.mp h
    rw [ih hrest]
    congr 1
    apply List.filter_eq_self.mpr
    intro m hm
    simp only [decide_eq_true_eq]
    intro he
    exact hn (he ▸ hm)

theorem contains_true_iff (l : List String) (a : String) :
    l.contains a = true ↔ a ∈ l := by
  simp [List.contains]

theorem contains_false_iff (l : List String) (a : String) :
    l.contains a = false ↔ a ∉ l := by
  simp [List.contains]

theorem count_eq_one_of_nodup_mem {l : List String} {a : String}
    (hnd : l.Nodup) (h : a ∈ l) : l.count a = 1 := by
  induction l with
  | nil => simp at h
  | cons b t ih =>
    obtain ⟨hb, ht⟩ := List.nodup_cons.mp hnd
    rw [List.count_cons]
    rcases List.mem_cons.mp h with rfl | hmem
    · rw [List.count_eq_zero_of_not_mem hb]
      simp
    · have hne : a ≠ b := fun he => hb (he ▸ hmem)
      have hab : (b == a) = false := beq_eq_false_iff_ne.mpr (fun he => hne he.symm)
      rw [ih ht hmem, hab]
      simp

/-- C4: with a priority hint, `PriorityOrder` is exactly the hinted names that
are registered, in hint order (unknown hinted names dropped silently),
followed by the registered names absent from the hint in registration order;
in particular registered `[X, Y, Z]` with hint `"Z,Q,X"` yields
`[Z, X, Y]`. -/
theorem c4_priority_construction (providerNames : List String) (hint : String)
    (hnd : providerNames.Nodup) :
    buildPriorityOrder providerNames (some hint) =
      (hintNames hint).filter (fun n => providerNames.contains n) ++
        providerNames.filter (fun n => !(hintNames hint).contains n) ∧
    buildPriorityOrder ["X", "Y", "Z"] (some "Z,Q,X") = ["Z", "X", "Y"] := by
  refine ⟨?_, by decide⟩
  simp only [buildPriorityOrder, mapKeys_eq_self hnd]
  congr 1
  apply List.filter_congr
  intro n hn
  congr 1
  by_cases hmem : n ∈ hintNames hint
  · rw [(contains_true_iff _ _).mpr
        (List.mem_filter.mpr ⟨hmem, (contains_true_iff _ _).mpr hn⟩),
      (contains_true_iff _ _).mpr hmem]
  · rw [(contains_false_iff _ _).mpr (fun hc => hmem (List.mem_filter.mp hc).1),
      (contains_false_iff _ _).mpr hmem]

/-- Witness for C4 at registered `["X", "Y", "Z"]` with hint `"Z,Q,X"`. -/
theorem c4_priority_construction_witness :
    (["X", "Y", "Z"] : List String).Nodup ∧
    buildPriorityOrder ["X", "Y", "Z"] (some "Z,Q,X") = ["Z", "X", "Y"] :=
  ⟨by decide, (c4_priority_construction ["X", "Y", "Z"] "Z,Q,X" (by decide)).2⟩

/-- C5 counterexample: with the single registered provider `X` (nonempty,
distinct names) and the hint `"X,X"` that repeats a registered name, the
constructed priority order is `[X, X]`, so `X` appears twice, not exactly
once as the claim requires for every hint string. -/
theorem c5_each_name_once_counterexample :
    buildPriorityOrder ["X"] (some "X,X") = ["X", "X"] ∧
    ¬((buildPriorityOrder ["X"] (some "X,X")).count "X" = 1) := by
  constructor <;> decide

/-- C5 amended: each registered provider name appears exactly once in the
priority order, provided the trimmed hint entries are themselves pairwise
distinct (a hint repeating a registered name duplicates it instead). -/
theorem c5_each_name_once_amended (providerNames : List String) (hint : String)
    (_hne : providerNames ≠ []) (hnd : providerNames.Nodup)
    (hhint : (hintNames hint).Nodup) :
    ∀ name ∈ providerNames,
      (buildPriorityOrder providerNames (some hint)).count name = 1 := by
  intro name hmem
  simp only [buildPriorityOrder, mapKeys_eq_self hnd]
  rw [List.count_append]
  by_cases hin : name ∈ (hintNames hint).filter (fun n => providerNames.contains n)
  · rw [count_eq_one_of_nodup_mem (hhint.filter _) hin]
    have hnotin : name ∉ providerNames.filter
        (fun n => !((hintNames hint).filter (fun m => providerNames.contains m)).contains n) := by
      intro hc
      have h2 := (List.mem_filter.mp hc).2
      rw [Bool.not_eq_true', contains_false_iff] at h2
      exact h2 hin
    rw [List.count_eq_zero_of_not_mem hnotin]
  · rw [List.count_eq_zero_of_not_mem hin]
    have hmem2 : name ∈ providerNames.filter
        (fun n => !((hintNames hint).filter (fun m => providerNames.contains m)).contains n) := by
      rw [List.mem_filter]
      refine ⟨hmem, ?_⟩
      rw [Bool.not_eq_true', contains_false_iff]
      exact hin
    rw [count_eq_one_of_nodup_mem (hnd.filter _) hmem2]

/-- Witness for the amended C5: registered `["X", "Y"]` with hint `"Y"`. -/
theorem c5_each_name_once_amended_witness :
    (["X", "Y"] : List String) ≠ [] ∧ (["X", "Y"] : List String).Nodup ∧
    (hintNames "Y").Nodup ∧
    (buildPriorityOrder ["X", "Y"] (some "Y")).count "X" = 1 :=
  ⟨by decide, by decide, by decide,
    c5_each_name_once_amended ["X", "Y"] "Y" (by decide) (by decide) (by decide) "X"
      (by decide)⟩

/-! ## Claim theorems: the failover loop -/

theorem lookupProvider_name {providers : List Provider} {name : String} {p : Provider}
    (h : lookupProvider providers name = some p) : p.name = name := by
  have := List.find?_some h
  simpa using this

theorem tryInOrder_success_sound (providers : List Provider) (skip : Option String)
    (order : List String) :
    ∀ (st0 : AttemptState) (f : StandardizedForecast) (nm : String) (st : AttemptState),
      tryInOrder providers skip order st0 = .success f nm st →
      ∃ p : Provider, lookupProvider providers nm = some p ∧
        p.availResult = .ok true ∧ p.forecastResult = .ok f := by
  induction order with
  | nil =>
    intro st0 f nm st h
    simp [tryInOrder] at h
  | cons name rest ih =>
    intro st0 f nm st h
    rw [tryInOrder] at h
    by_cases hskip : skip = some name
    · rw [if_pos hskip] at h
      exact ih st0 f nm st h
    · rw [if_neg hskip] at h
      cases hl : lookupProvider providers name with
      | none =>
        rw [hl] at h
        exact ih st0 f nm st h
      | some p =>
        rw [hl] at h
        cases hA : p.availResult with
        | error e =>
          simp only [attemptProvider, hA] at h
          exact ih _ f nm st h
        | ok b =>
          cases b with
          | false =>
            simp only [attemptProvider, hA] at h
            exact ih _ f nm st h
          | true =>
            cases hF : p.forecastResult with
            | error e =>
              simp only [attemptProvider, hA, hF] at h
              exact ih _ f nm st h
            | ok fc =>
              simp only [attemptProvider, hA, hF, LoopResult.success.injEq] at h
              obtain ⟨rfl, hnm, -⟩ := h
              refine ⟨p, ?_, hA, hF⟩
              rw [← hnm, lookupProvider_name hl]
              exact hl

/-- C1: without a preferred provider the manager attempts providers strictly
in priority order: a provider whose probe returns `false` is skipped without
recording an error, the first successful fetch's formatted forecast is
returned, and later providers are never probed nor fetched. In the spec's
scenario — priority `[B, A, C]`, `B` available but failing, `A` succeeding —
the result is `A`'s formatted forecast, the only recorded error is `B`'s, and
`C` (whatever its behaviour) is never consulted; prepending an unavailable
provider `D` changes nothing but `D`'s silent probe. Every successful call
returns the forecast of exactly one provider, one whose probe returned `true`
and whose fetch succeeded (no merging). -/
theorem c1_priority_failover :
    (∀ (cAvail : Except PError Bool) (cFore : Except PError StandardizedForecast)
        (rt : ℤ → List Char) (fA : StandardizedForecast),
      getForecast rt
        [⟨"B", .ok true, .error (.service "B" "B failed")⟩, ⟨"A", .ok true, .ok fA⟩,
         ⟨"C", cAvail, cFore⟩]
        ["B", "A", "C"] none =
      ⟨.ok (formatForecast rt fA "A"),
       ⟨[.service "B" "B failed"], ["B", "A"], ["B", "A"]⟩⟩) ∧
    (∀ (cAvail : Except PError Bool) (cFore : Except PError StandardizedForecast)
        (rt : ℤ → List Char) (fA fD : StandardizedForecast),
      getForecast rt
        [⟨"D", .ok false, .ok fD⟩, ⟨"B", .ok true, .error (.service "B" "B failed")⟩,
         ⟨"A", .ok true, .ok fA⟩, ⟨"C", cAvail, cFore⟩]
        ["D", "B", "A", "C"] none =
      ⟨.ok (formatForecast rt fA "A"),
       ⟨[.service "B" "B failed"], ["D", "B", "A"], ["B", "A"]⟩⟩) ∧
    (∀ (providers : List Provider) (order : List String) (rt : ℤ → List Char)
        (f : StandardizedForecast) (nm : String) (st : AttemptState),
      tryInOrder providers none order ⟨[], [], []⟩ = .success f nm st →
      ∃ p : Provider, lookupProvider providers nm = some p ∧
        p.availResult = .ok true ∧ p.forecastResult = .ok f ∧
        getForecast rt providers order none = ⟨.ok (formatForecast rt f nm), st⟩) := by
  refine ⟨fun cAvail cFore rt fA => rfl, fun cAvail cFore rt fA fD => rfl, ?_⟩
  intro providers order rt f nm st h
  obtain ⟨p, hl, hA, hF⟩ := tryInOrder_success_sound providers none order ⟨[], [], []⟩ f nm st h
  refine ⟨p, hl, hA, hF, ?_⟩
  simp only [getForecast, prefAttempt]
  rw [h]
  rfl

/-- Witness for the general conjunct of C1 at a concrete one-provider run. -/
theorem c1_priority_failover_witness :
    tryInOrder [⟨"A", .ok true, .ok ⟨"L", ⟨1, 1, 1, "c"⟩, [], ⟨1, 1, "c"⟩⟩⟩] none ["A"]
        ⟨[], [], []⟩ =
      .success ⟨"L", ⟨1, 1, 1, "c"⟩, [], ⟨1, 1, "c"⟩⟩ "A" ⟨[], ["A"], ["A"]⟩ ∧
    ∃ p : Provider,
      lookupProvider [⟨"A", .ok true, .ok ⟨"L", ⟨1, 1, 1, "c"⟩, [], ⟨1, 1, "c"⟩⟩⟩] "A" =
          some p ∧
        p.availResult = .ok true ∧
        p.forecastResult = .ok ⟨"L", ⟨1, 1, 1, "c"⟩, [], ⟨1, 1, "c"⟩⟩ ∧
        getForecast (fun _ => []) [⟨"A", .ok true, .ok ⟨"L", ⟨1, 1, 1, "c"⟩, [], ⟨1, 1, "c"⟩⟩⟩]
            ["A"] none =
          ⟨.ok (formatForecast (fun _ => []) ⟨"L", ⟨1, 1, 1, "c"⟩, [], ⟨1, 1, "c"⟩⟩ "A"),
           ⟨[], ["A"], ["A"]⟩⟩ :=
  ⟨by decide,
    c1_priority_failover.2.2 _ ["A"] (fun _ => []) _ "A" ⟨[], ["A"], ["A"]⟩ (by decide)⟩

/-! ## Claim theorems: error aggregation -/

theorem startsWithL_sound : ∀ pat s : List Char, startsWithL pat s = true → ∃ t, s = pat ++ t := by
  intro pat
  induction pat with
  | nil => intro s h; exact ⟨s, rfl⟩
  | cons p ps ih =>
    intro s h
    cases s with
    | nil => simp [startsWithL] at h
    | cons c cs =>
      simp only [startsWithL, Bool.and_eq_true, decide_eq_true_eq] at h
      obtain ⟨rfl, h2⟩ := h
      obtain ⟨t, rfl⟩ := ih cs h2
      exact ⟨t, rfl⟩

theorem containsSub_sound : ∀ pat s : List Char,
    containsSub pat s = true → ∃ pre post, s = pre ++ pat ++ post := by
  intro pat s
  induction s with
  | nil =>
    intro h
    unfold containsSub at h
    obtain ⟨t, ht⟩ := startsWithL_sound _ _ h
    exact ⟨[], t, by simpa using ht⟩
  | cons c cs ih =>
    intro h
    unfold containsSub at h
    rcases Bool.or_eq_true_iff.mp h with h1 | h2
    · obtain ⟨t, ht⟩ := startsWithL_sound _ _ h1
      exact ⟨[], t, by simpa using ht⟩
    · obtain ⟨pre, post, hp⟩ := ih h2
      exact ⟨c :: pre, post, by simp [hp]⟩

theorem startsWithL_refl_append (pat t : List Char) : startsWithL pat (pat ++ t) = true := by
  induction pat with
  | nil => rfl
  | cons c cs ih => simp [startsWithL, ih]

theorem containsSub_complete : ∀ pre pat post : List Char,
    containsSub pat (pre ++ pat ++ post) = true := by
  intro pre
  induction pre with
  | nil =>
    intro pat post
    cases hp : pat ++ post with
    | nil =>
      simp only [List.nil_append]
      rw [hp]
      unfold containsSub
      have : pat = [] := by
        cases pat with
        | nil => rfl
        | cons c cs => simp at hp
      rw [this]
      rfl
    | cons c cs =>
      simp only [List.nil_append]
      rw [hp]
      unfold containsSub
      rw [← hp, startsWithL_refl_append]
      simp
  | cons c cs ih =>
    intro pat post
    simp only [List.cons_append]
    unfold containsSub
    rw [ih pat post]
    simp

theorem mem_joinSep_decomp {α : Type} (f : α → List Char) (sep : List Char) :
    ∀ (l : List α) (x : α), x ∈ l →
      ∃ pre post, joinSep sep (l.map f) = pre ++ f x ++ post := by
  intro l
  induction l with
  | nil => intro x hx; simp at hx
  | cons y ys ih =>
    intro x hx
    rcases List.mem_cons.mp hx with rfl | hmem
    · cases ys with
      | nil => exact ⟨[], [], by simp [joinSep]⟩
      | cons z zs =>
        exact ⟨[], sep ++ joinSep sep ((z :: zs).map f), by simp [joinSep]⟩
    · obtain ⟨pre, post, hpp⟩ := ih x hmem
      cases ys with
      | nil => simp at hmem
      | cons z zs =>
        refine ⟨f y ++ sep ++ pre, post, ?_⟩
        simp only [List.map_cons, joinSep]
        rw [← List.map_cons, hpp]
        simp [List.append_assoc]

theorem finishLoop_error {rt : ℤ → List Char} {lr : LoopResult} {msg : List Char}
    (h : (finishLoop rt lr).outcome = .error msg) :
    msg = allFailedMessage (finishLoop rt lr).finalState.errors := by
  cases lr with
  | success f nm st => simp [finishLoop] at h
  | exhausted st =>
    simp only [finishLoop, Except.error.injEq] at h
    simp only [finishLoop]
    exact h.symm

theorem getForecast_cases (rt : ℤ → List Char) (providers : List Provider)
    (order : List String) (preferred : Option String) :
    (∃ f nm st, getForecast rt providers order preferred =
      ⟨.ok (formatForecast rt f nm), st⟩) ∨
    (∃ st0, getForecast rt providers order preferred =
      finishLoop rt (tryInOrder providers preferred order st0)) := by
  cases hp : prefAttempt providers preferred with
  | mk o st =>
    cases o with
    | some pair =>
      cases pair with
      | mk f nm =>
        refine Or.inl ⟨f, nm, st, ?_⟩
        simp [getForecast, hp]
    | none =>
      refine Or.inr ⟨st, ?_⟩
      simp [getForecast, hp]

theorem getForecast_error_shape (rt : ℤ → List Char) (providers : List Provider)
    (order : List String) (preferred : Option String) (msg : List Char)
    (h : (getForecast rt providers order preferred).outcome = .error msg) :
    msg = allFailedMessage (getForecast rt providers order preferred).finalState.errors := by
  rcases getForecast_cases rt providers order preferred with ⟨f, nm, st, hcase⟩ | ⟨st0, hcase⟩
  · rw [hcase] at h
    exact Except.noConfusion h
  · rw [hcase] at h ⊢
    exact finishLoop_error h

/-- C2 counterexample: a single registered provider `P` failing with a plain
(non-`WeatherServiceError`) error `"boom"` yields the aggregate message
`"Unable to fetch weather data: boom"`, which does not contain the entry
`"P: boom"` — the failed provider's name is absent from the message,
contradicting the claim that every failed provider contributes a
`"<providerName>: <message>"` entry. -/
theorem c2_error_aggregation_counterexample :
    (getForecast (fun _ => []) [⟨"P", .ok true, .error (.generic "boom")⟩]
        ["P"] none).outcome = .error ("Unable to fetch weather data: boom".toList) ∧
    containsSub ("P: boom".toList) ("Unable to fetch weather data: boom".toList) = false ∧
    ∀ pre post, "Unable to fetch weather data: boom".toList ≠
      pre ++ "P: boom".toList ++ post := by
  refine ⟨by decide, by decide, ?_⟩
  intro pre post heq
  have hc := containsSub_complete pre ("P: boom".toList) post
  rw [← heq] at hc
  have hf : containsSub ("P: boom".toList) ("Unable to fetch weather data: boom".toList)
      = false := by decide
  rw [hf] at hc
  exact Bool.false_ne_true hc

/-- C2 amended: when every provider was skipped or failed, the thrown message
is `"Unable to fetch weather data: "` followed by the captured errors rendered
in capture order and joined by `"; "`, where a provider-tagged
`WeatherServiceError` renders as `"<providerName>: <message>"` and a plain
error as just its message; hence the message contains a
`"<providerName>: <message>"` entry for every provider-tagged failure
(providers skipped as unavailable recorded no error and contribute
nothing). -/
theorem c2_error_aggregation_amended (rt : ℤ → List Char) (providers : List Provider)
    (order : List String) (preferred : Option String) (msg : List Char)
    (h : (getForecast rt providers order preferred).outcome = .error msg) :
    msg = allFailedMessage (getForecast rt providers order preferred).finalState.errors ∧
    ∀ p m, PError.service p m ∈ (getForecast rt providers order preferred).finalState.errors →
      ∃ pre post, msg = pre ++ (p.toList ++ ": ".toList ++ m.toList) ++ post := by
  have hshape := getForecast_error_shape rt providers order preferred msg h
  refine ⟨hshape, ?_⟩
  intro p m hmem
  obtain ⟨pre, post, hpp⟩ :=
    mem_joinSep_decomp renderPError ("; ".toList) _ (PError.service p m) hmem
  refine ⟨"Unable to fetch weather data: ".toList ++ pre, post, ?_⟩
  rw [hshape]
  unfold allFailedMessage
  rw [hpp]
  simp only [renderPError]
  simp [List.append_assoc]

/-- Witness for the amended C2: both providers fail with provider-tagged
errors; the message contains the `"P: pfail"` entry. -/
theorem c2_error_aggregation_amended_witness :
    ∃ pre post, "Unable to fetch weather data: P: pfail; Q: qfail".toList =
      pre ++ ("P".toList ++ ": ".toList ++ "pfail".toList) ++ post :=
  (c2_error_aggregation_amended (fun _ => [])
    [⟨"P", .ok true, .error (.service "P" "pfail")⟩,
     ⟨"Q", .ok true, .error (.service "Q" "qfail")⟩]
    ["P", "Q"] none _ (by decide)).2 "P" "pfail" (by decide)

/-! ## Claim theorems: the preferred-provider phase -/

/-- C6 counterexample: preferred provider `P` whose probe cleanly returns
`false`; afterwards provider `Q` fails. The final error list holds only `Q`'s
error — nothing was appended for `P`, contradicting the claim that an
`isAvailable() === false` probe appends an error. -/
theorem c6_preferred_unavailable_counterexample :
    getForecast (fun _ => [])
        [⟨"P", .ok false, .ok ⟨"L", ⟨1, 1, 1, "c"⟩, [], ⟨1, 1, "c"⟩⟩⟩,
         ⟨"Q", .ok true, .error (.service "Q" "qfail")⟩]
        ["P", "Q"] (some "P") =
      ⟨.error ("Unable to fetch weather data: Q: qfail".toList),
       ⟨[.service "Q" "qfail"], ["P", "Q"], ["Q"]⟩⟩ ∧
    ∀ m, PError.service "P" m ∉
      (getForecast (fun _ => [])
        [⟨"P", .ok false, .ok ⟨"L", ⟨1, 1, 1, "c"⟩, [], ⟨1, 1, "c"⟩⟩⟩,
         ⟨"Q", .ok true, .error (.service "Q" "qfail")⟩]
        ["P", "Q"] (some "P")).finalState.errors := by
  refine ⟨by decide, ?_⟩
  intro m hm
  have he : (getForecast (fun _ => [])
      [⟨"P", .ok false, .ok ⟨"L", ⟨1, 1, 1, "c"⟩, [], ⟨1, 1, "c"⟩⟩⟩,
       ⟨"Q", .ok true, .error (.service "Q" "qfail")⟩]
      ["P", "Q"] (some "P")).finalState.errors = [.service "Q" "qfail"] := by decide
  rw [he] at hm
  have heq := List.mem_singleton.mp hm
  injection heq with h1 h2
  exact absurd h1 (by decide)

/-- C6 amended: a registered preferred provider is attempted first. If its
probe throws or its fetch fails, that error is appended to the captured list
and the manager continues with the priority loop; if the probe merely returns
`false`, nothing is recorded (no error is appended) and the manager continues
all the same; on success it returns immediately. In every continue case the
loop runs with the preferred name skipped wherever it occurs in the priority
order. -/
theorem c6_preferred_fallthrough_amended (rt : ℤ → List Char)
    (providers : List Provider) (order : List String) (name : String) (p : Provider)
    (hl : lookupProvider providers name = some p) :
    (p.availResult = .ok false →
      getForecast rt providers order (some name) =
        finishLoop rt (tryInOrder providers (some name) order ⟨[], [name], []⟩)) ∧
    (∀ e, p.availResult = .error e →
      getForecast rt providers order (some name) =
        finishLoop rt (tryInOrder providers (some name) order ⟨[e], [name], []⟩)) ∧
    (∀ e, p.availResult = .ok true → p.forecastResult = .error e →
      getForecast rt providers order (some name) =
        finishLoop rt (tryInOrder providers (some name) order ⟨[e], [name], [name]⟩)) ∧
    (∀ f, p.availResult = .ok true → p.forecastResult = .ok f →
      getForecast rt providers order (some name) =
        ⟨.ok (formatForecast rt f name), ⟨[], [name], [name]⟩⟩) ∧
    (∀ rest st, tryInOrder providers (some name) (name :: rest) st =
      tryInOrder providers (some name) rest st) := by
  have hpn : p.name = name := lookupProvider_name hl
  refine ⟨?_, ?_, ?_, ?_, ?_⟩
  · intro hA
    simp [getForecast, prefAttempt, hl, attemptProvider, hA, hpn]
  · intro e hA
    simp [getForecast, prefAttempt, hl, attemptProvider, hA, hpn]
  · intro e hA hF
    simp [getForecast, prefAttempt, hl, attemptProvider, hA, hF, hpn]
  · intro f hA hF
    simp [getForecast, prefAttempt, hl, attemptProvider, hA, hF, hpn]
  · intro rest st
    rw [tryInOrder, if_pos rfl]

/-- Witness for the amended C6: the unavailable preferred provider of the
counterexample configuration falls through to the loop with nothing
recorded. -/
theorem c6_preferred_fallthrough_amended_witness :
    lookupProvider
        [⟨"P", .ok false, .ok ⟨"L", ⟨1, 1, 1, "c"⟩, [], ⟨1, 1, "c"⟩⟩⟩,
         ⟨"Q", .ok true, .error (.service "Q" "qfail")⟩] "P" =
      some ⟨"P", .ok false, .ok ⟨"L", ⟨1, 1, 1, "c"⟩, [], ⟨1, 1, "c"⟩⟩⟩ ∧
    getForecast (fun _ => [])
        [⟨"P", .ok false, .ok ⟨"L", ⟨1, 1, 1, "c"⟩, [], ⟨1, 1, "c"⟩⟩⟩,
         ⟨"Q", .ok true, .error (.service "Q" "qfail")⟩]
        ["P", "Q"] (some "P") =
      finishLoop (fun _ => [])
        (tryInOrder
          [⟨"P", .ok false, .ok ⟨"L", ⟨1, 1, 1, "c"⟩, [], ⟨1, 1, "c"⟩⟩⟩,
           ⟨"Q", .ok true, .error (.service "Q" "qfail")⟩]
          (some "P") ["P", "Q"] ⟨[], ["P"], []⟩) :=
  ⟨by decide,
    (c6_preferred_fallthrough_amended (fun _ => [])
      [⟨"P", .ok false, .ok ⟨"L", ⟨1, 1, 1, "c"⟩, [], ⟨1, 1, "c"⟩⟩⟩,
       ⟨"Q", .ok true, .error (.service "Q" "qfail")⟩]
      ["P", "Q"] "P"
      ⟨"P", .ok false, .ok ⟨"L", ⟨1, 1, 1, "c"⟩, [], ⟨1, 1, "c"⟩⟩⟩ (by decide)).1 rfl⟩

/-! ## Claim theorems: forecast formatting -/

theorem renderNum_int {q : ℚ} (h : q.den = 1) : renderNum q = renderInt q := by
  simp only [renderNum, renderInt, h, Nat.div_one, Nat.mod_one]
  have hfz : fracDigitsAux 30 0 1 = [] := rfl
  rw [hfz]
  simp

theorem exists_decomp_left (t : List Char) {s pat : List Char}
    (h : ∃ pre post, s = pre ++ pat ++ post) :
    ∃ pre post, t ++ s = pre ++ pat ++ post := by
  obtain ⟨a, b, hab⟩ := h
  exact ⟨t ++ a, b, by rw [hab]; simp [List.append_assoc]⟩

theorem exists_decomp_right (t : List Char) {s pat : List Char}
    (h : ∃ pre post, s = pre ++ pat ++ post) :
    ∃ pre post, s ++ t = pre ++ pat ++ post := by
  obtain ⟨a, b, hab⟩ := h
  exact ⟨a, b ++ t, by rw [hab]; simp [List.append_assoc]⟩

/-- C9 counterexample: a forecast whose current temperature is 15.5 renders as
`"15.5°C"` in the manager's output — the value is interpolated as-is, and the
rounded form `"16°C"` appears nowhere — contradicting the claim that the
manager's formatting rounds every temperature to the nearest whole degree. -/
theorem c9_rounding_counterexample :
    containsSub ("15.5°C".toList)
      (formatForecast (fun _ => "12 AM".toList)
        ⟨"Spot", ⟨mkRat 31 2, mkRat 29 2, 60, "Clear"⟩,
         [⟨0, mkRat 33 2, "Clear"⟩], ⟨mkRat 33 2, mkRat 29 2, "Clear"⟩⟩ "test") = true ∧
    containsSub ("16°C".toList)
      (formatForecast (fun _ => "12 AM".toList)
        ⟨"Spot", ⟨mkRat 31 2, mkRat 29 2, 60, "Clear"⟩,
         [⟨0, mkRat 33 2, "Clear"⟩], ⟨mkRat 33 2, mkRat 29 2, "Clear"⟩⟩ "test") = false ∧
    ∀ pre post,
      formatForecast (fun _ => "12 AM".toList)
        ⟨"Spot", ⟨mkRat 31 2, mkRat 29 2, 60, "Clear"⟩,
         [⟨0, mkRat 33 2, "Clear"⟩], ⟨mkRat 33 2, mkRat 29 2, "Clear"⟩⟩ "test" ≠
      pre ++ "16°C".toList ++ post := by
  refine ⟨by decide, by decide, ?_⟩
  intro pre post heq
  have hc := containsSub_complete pre ("16°C".toList) post
  rw [← heq] at hc
  have hf : containsSub ("16°C".toList)
      (formatForecast (fun _ => "12 AM".toList)
        ⟨"Spot", ⟨mkRat 31 2, mkRat 29 2, 60, "Clear"⟩,
         [⟨0, mkRat 33 2, "Clear"⟩], ⟨mkRat 33 2, mkRat 29 2, "Clear"⟩⟩ "test") = false := by
    decide
  rw [hf] at hc
  exact Bool.false_ne_true hc

/-- C9 amended: the manager's formatting interpolates numeric fields as-is
(rounding is the adapters' responsibility); consequently, for every forecast
whose temperature and humidity fields are whole numbers — as the shipped
adapters produce via `Math.round` — the output renders every temperature
(current, feels-like, each hourly entry, high and low) as that whole number of
degrees with a trailing `°C`, and the humidity as a whole-number
percentage. -/
theorem c9_formatting_amended (rt : ℤ → List Char) (f : StandardizedForecast) (pn : String)
    (hT : f.current.temp.den = 1) (hF : f.current.feelsLike.den = 1)
    (hH : f.current.humidity.den = 1)
    (hHr : ∀ h ∈ f.hourly, (HourlyEntry.temp h).den = 1)
    (hHi : f.summary.high.den = 1) (hLo : f.summary.low.den = 1) :
    (∃ pre post, formatForecast rt f pn =
      pre ++ (renderInt f.current.temp ++ "°C".toList) ++ post) ∧
    (∃ pre post, formatForecast rt f pn =
      pre ++ ("Feels like ".toList ++ renderInt f.current.feelsLike ++ "°C".toList) ++ post) ∧
    (∃ pre post, formatForecast rt f pn =
      pre ++ ("Humidity: ".toList ++ renderInt f.current.humidity ++ "%".toList) ++ post) ∧
    (∀ h ∈ f.hourly, ∃ pre post, formatForecast rt f pn =
      pre ++ (renderInt (HourlyEntry.temp h) ++ "°C".toList) ++ post) ∧
    (∃ pre post, formatForecast rt f pn =
      pre ++ ("High: ".toList ++ renderInt f.summary.high ++ "°C Low: ".toList ++
        renderInt f.summary.low ++ "°C".toList) ++ post) := by
  have hs1 : "°C ".toList = "°C".toList ++ " ".toList := by decide
  refine ⟨?_, ?_, ?_, ?_, ?_⟩
  · simp only [formatForecast]
    apply exists_decomp_right
    apply exists_decomp_right
    apply exists_decomp_right
    apply exists_decomp_right
    apply exists_decomp_left
    simp only [joinSep]
    apply exists_decomp_right
    apply exists_decomp_right
    rw [renderNum_int hT, hs1]
    exact ⟨[], " ".toList ++ f.current.description.toList, by simp [List.append_assoc]⟩
  · simp only [formatForecast]
    apply exists_decomp_right
    apply exists_decomp_right
    apply exists_decomp_right
    apply exists_decomp_right
    apply exists_decomp_left
    simp only [joinSep]
    apply exists_decomp_left
    apply exists_decomp_right
    apply exists_decomp_right
    rw [renderNum_int hF]
    exact ⟨[], [], by simp [List.append_assoc]⟩
  · simp only [formatForecast]
    apply exists_decomp_right
    apply exists_decomp_right
    apply exists_decomp_right
    apply exists_decomp_right
    apply exists_decomp_left
    simp only [joinSep]
    apply exists_decomp_left
    apply exists_decomp_left
    rw [renderNum_int hH]
    exact ⟨[], [], by simp [List.append_assoc]⟩
  · intro h hmem
    simp only [formatForecast]
    apply exists_decomp_right
    apply exists_decomp_right
    apply exists_decomp_left
    obtain ⟨pre1, post1, hpp⟩ := mem_joinSep_decomp
      (fun x => rt (HourlyEntry.timestamp x) ++ ": ".toList ++ renderNum (HourlyEntry.temp x)
        ++ "°C ".toList ++ (HourlyEntry.description x).toList)
      ['\n'] f.hourly h hmem
    rw [hpp]
    apply exists_decomp_right
    apply exists_decomp_left
    apply exists_decomp_right
    rw [renderNum_int (hHr h hmem), hs1]
    exact ⟨rt (HourlyEntry.timestamp h) ++ ": ".toList, " ".toList,
      by simp [List.append_assoc]⟩
  · simp only [formatForecast]
    apply exists_decomp_left
    simp only [joinSep]
    apply exists_decomp_right
    apply exists_decomp_right
    rw [renderNum_int hHi, renderNum_int hLo]
    exact ⟨[], [], by simp [List.append_assoc]⟩

/-- Witness for the amended C9 at a whole-valued forecast. -/
theorem c9_formatting_amended_witness :
    ((15 : ℚ).den = 1 ∧ (14 : ℚ).den = 1 ∧ (60 : ℚ).den = 1 ∧ (16 : ℚ).den = 1) ∧
    ∃ pre post,
      formatForecast (fun _ => "12 AM".toList)
        ⟨"Spot", ⟨15, 14, 60, "Clear"⟩, [⟨0, 16, "Cloudy"⟩], ⟨16, 14, "Clear"⟩⟩ "test" =
      pre ++ (renderInt (15 : ℚ) ++ "°C".toList) ++ post :=
  ⟨⟨by decide, by decide, by decide, by decide⟩,
    (c9_formatting_amended (fun _ => "12 AM".toList)
      ⟨"Spot", ⟨15, 14, 60, "Clear"⟩, [⟨0, 16, "Cloudy"⟩], ⟨16, 14, "Clear"⟩⟩ "test"
      (by decide) (by decide) (by decide) (by decide) (by decide) (by decide)).1⟩

end TextWeather

/-! ## Concrete evaluations of the embedding

Sanity checks that the embedded functions compute the behaviours observed in
the source on concrete inputs. -/

section Evaluation
open TextWeather

example : processLocation ("51.5074,-0.1278".toList) =
    .coords ⟨mkRat 515074 10000, -mkRat 1278 10000⟩ := by decide

example : processLocation ("90,180".toList) = .coords ⟨90, 180⟩ := by decide

example : processLocation ("-90,-180".toList) = .coords ⟨-90, -180⟩ := by decide

example : processLocation ("90.0001,0".toList) = .formatError invalidCoordMsg := by decide

example : processLocation ("hello world".toList) = .notALocation := by decide

example : processLocation ("///filled.count.soap".toList) =
    .w3wLookup ("filled.count.soap".toList) := by decide

example : processLocation ("Filled.Count.Soap".toList) =
    .w3wLookup ("filled.count.soap".toList) := by decide

example : processLocation ("(51.5, -0.1)".toList) = .notALocation := by decide

example : processLocation ("51.5074°n, 0.1278°w".toList) = .notALocation := by decide

example : processLocation ("  51.5,0.5  ".toList) =
    .coords ⟨mkRat 515 10, mkRat 5 10⟩ := by decide

example : renderNum (mkRat 31 2) = "15.5".toList := by decide

example : renderNum 15 = "15".toList := by decide

example : renderNum (-(mkRat 1 2)) = "-0.5".toList := by decide

example : renderNum 0 = "0".toList := by decide

example : buildPriorityOrder ["X", "Y", "Z"] (some "Z,Q,X") = ["Z", "X", "Y"] := by decide

example : buildPriorityOrder ["X", "Y", "Z"] none = ["X", "Y", "Z"] := by decide

example : buildPriorityOrder ["X"] (some "X,X") = ["X", "X"] := by decide

example : buildPriorityOrder ["X", "Y"] (some " Y , Q ") = ["Y", "X"] := by decide

example :
    getForecast (fun _ => [])
      [⟨"B", .ok true, .error (.service "B" "bdown")⟩,
       ⟨"A", .ok true, .ok ⟨"Loc", ⟨15, 14, 60, "Clear"⟩, [], ⟨16, 14, "Clear"⟩⟩⟩]
      ["B", "A", "C"] none =
    ⟨.ok (formatForecast (fun _ => []) ⟨"Loc", ⟨15, 14, 60, "Clear"⟩, [], ⟨16, 14, "Clear"⟩⟩ "A"),
     ⟨[.service "B" "bdown"], ["B", "A"], ["B", "A"]⟩⟩ := by decide

example :
    getForecast (fun _ => [])
      [⟨"P", .ok true, .error (.generic "boom")⟩] ["P"] none =
    ⟨.error ("Unable to fetch weather data: boom".toList),
     ⟨[.generic "boom"], ["P"], ["P"]⟩⟩ := by decide

example :
    getForecast (fun _ => [])
      [⟨"P", .ok false, .ok ⟨"L", ⟨1, 1, 1, "c"⟩, [], ⟨1, 1, "c"⟩⟩⟩,
       ⟨"Q", .ok true, .error (.service "Q" "qfail")⟩]
      ["P", "Q"] (some "P") =
    ⟨.error ("Unable to fetch weather data: Q: qfail".toList),
     ⟨[.service "Q" "qfail"], ["P", "Q"], ["Q"]⟩⟩ := by decide

end Evaluation
